import Mathlib

/-!
Verification development for the FlashDecky flashcard generator
(`src/app.py`).  The Python source is shallowly embedded: strings are
modelled as `String` / `List Char`, the `re`-based heuristics are
translated into executable Lean functions with the same matching
behaviour, floating point page geometry is modelled over `ℚ` (every
quantity in the source is an exact decimal/rational), and the ReportLab
canvas is modelled as a list of draw instructions per page.
-/

namespace FlashDecky

/-! ### Character classes (Python `re` / `str` semantics, ASCII fragment) -/

/-- Python `str.strip` / `\s` whitespace: space, tab, newline, carriage
return, vertical tab (11), form feed (12). -/
def isSpace (c : Char) : Bool :=
  c == ' ' || c == '\t' || c == '\n' || c == '\r' ||
  c == Char.ofNat 11 || c == Char.ofNat 12

/-- Regex `\d` (ASCII digits, the relevant fragment). -/
def isDigitC (c : Char) : Bool :=
  '0' ≤ c && c ≤ '9'

/-- Regex `[A-Za-z]`. -/
def isAlphaC (c : Char) : Bool :=
  ('A' ≤ c && c ≤ 'Z') || ('a' ≤ c && c ≤ 'z')

/-- Regex `[A-Za-z'\-]` (word characters of the vocab pattern;
`Char.ofNat 39` is the apostrophe). -/
def isWordChar (c : Char) : Bool :=
  isAlphaC c || c == Char.ofNat 39 || c == '-'

/-! ### Python string primitives -/

/-- Python `str.strip()` on a character list. -/
def stripChars (cs : List Char) : List Char :=
  (((cs.dropWhile isSpace).reverse).dropWhile isSpace).reverse

/-- Python `str.strip()`. -/
def stripStr (s : String) : String :=
  ⟨stripChars s.data⟩

/-- Fuel-driven worker for `replaceAll`; the fuel (initially the length
of the subject) only serves to make the recursion structural, it never
runs out before the subject does. -/
def replaceAllAux (pat rep : List Char) : Nat → List Char → List Char
  | _, [] => []
  | 0, cs => cs
  | fuel + 1, c :: rest =>
    if !pat.isEmpty && pat.isPrefixOf (c :: rest) then
      rep ++ replaceAllAux pat rep fuel (rest.drop (pat.length - 1))
    else
      c :: replaceAllAux pat rep fuel rest

/-- Python `str.replace(pat, rep)`: replace every occurrence, scanning
left to right, non-overlapping. -/
def replaceAll (pat rep cs : List Char) : List Char :=
  replaceAllAux pat rep cs.length cs

/-- Worker for Python `str.split(None, 1)`. -/
def splitNoneOnce : List Char → List (List Char)
  | [] => []
  | c :: rest =>
    if isSpace c then splitNoneOnce rest
    else
      let tok := c :: rest.takeWhile (fun x => !isSpace x)
      let rest2 := (rest.dropWhile (fun x => !isSpace x)).dropWhile isSpace
      if rest2.isEmpty then [tok] else [tok, rest2]

/-- Worker for Python `str.split()` (split on whitespace runs, no empty
pieces); `cur` holds the current token reversed. -/
def splitNoneAux : List Char → List Char → List (List Char)
  | [], cur => if cur.isEmpty then [] else [cur.reverse]
  | c :: rest, cur =>
    if isSpace c then
      if cur.isEmpty then splitNoneAux rest []
      else cur.reverse :: splitNoneAux rest []
    else splitNoneAux rest (c :: cur)

/-- Python `str.split()` with no arguments. -/
def splitNone (cs : List Char) : List (List Char) :=
  splitNoneAux cs []

/-- First index at which `pat` occurs as a contiguous substring
(Python `pat in s` / the split position of `s.split(pat, 1)`). -/
def findSub (pat : List Char) : List Char → Option Nat
  | [] => if pat.isEmpty then some 0 else none
  | c :: rest =>
    if pat.isPrefixOf (c :: rest) then some 0
    else (findSub pat rest).map (fun i => i + 1)

/-! ### `app.py` lines 25-26: module level `DELIMS` list (defined in the
source but never used by `smart_split_term_def`, which has its own
literal list). -/

def DELIMS : List String :=
  [" — ", " – ", " - ", " : ", " :",
   " —", " –", " -", ":", "—", "–", "-"]

/-! ### `app.py` lines 28-48: `smart_split_term_def` -/

/-- Regex `[\.\)\-–—]` of the leading-numbering pattern. -/
def isNumPunct (c : Char) : Bool :=
  c == '.' || c == ')' || c == '-' || c == '–' || c == '—'

/-- `re.sub(r'^\s*\d+\s*[\.\)\-–—]\s*', '', s)` (app.py line 31).  The
character classes are pairwise disjoint, so the greedy anchored match is
exactly maximal munch: leading whitespace, then at least one digit, then
whitespace, then one punctuation mark, then whitespace; if the digits or
the punctuation mark are missing the string is unchanged. -/
def stripNumbering (cs : List Char) : List Char :=
  let a := cs.dropWhile isSpace
  let ds := a.takeWhile isDigitC
  if ds.isEmpty then cs
  else
    match (a.dropWhile isDigitC).dropWhile isSpace with
    | p :: rest => if isNumPunct p then rest.dropWhile isSpace else cs
    | [] => cs

/-- The delimiter list tried in order by `smart_split_term_def`
(app.py line 33): `[" - ", " — ", " – ", ":", " : "]`. -/
def delimsTried : List (List Char) :=
  [(" - ".data), (" — ".data), (" – ".data), (":".data), (" : ".data)]

/-- The `for d in [...]: if d in s: return s.split(d, 1)` loop of
app.py lines 33-36: first delimiter of the list that occurs wins, and
the string is split at its first occurrence. -/
def tryDelims (s : List Char) : List (List Char) → Option (List Char × List Char)
  | [] => none
  | d :: ds =>
    match findSub d s with
    | some i => some (s.take i, s.drop (i + d.length))
    | none => tryDelims s ds

/-- Matcher for the tail `\s*(.+)$` of the vocab regex at a fixed start:
`.` does not match a newline and `$` matches at the end or just before a
final newline, so a match is a non-empty newline-free prefix followed by
nothing or by a single final newline. -/
def tailMatchAt (tail : List Char) : Option (List Char) :=
  let p := tail.takeWhile (fun x => !(x == '\n'))
  if p.isEmpty then none
  else
    match tail.drop p.length with
    | [] => some p
    | ['\n'] => some p
    | _ => none

/-- Backtracking for the greedy `\s*` before `(.+)$`: try the maximal
whitespace prefix first, then shorter ones. -/
def tailCaptureAux (after : List Char) : Nat → Option (List Char)
  | 0 => tailMatchAt after
  | j + 1 =>
    match tailMatchAt (after.drop (j + 1)) with
    | some p => some p
    | none => tailCaptureAux after j

/-- Group 3 of the vocab regex: match of `\s*(.+)$` against `after`. -/
def tailCapture (after : List Char) : Option (List Char) :=
  tailCaptureAux after (after.takeWhile isSpace).length

/-- `re.match(r'^\s*([A-Za-z][A-Za-z'\-]*)\s*\(([^)]+)\)\s*(.+)$', s)`
(app.py lines 38-42), returning `(term, definition)` as built by the
source: `term = group(1).strip()`,
`definition = "(" + group(2).strip() + ") " + group(3).strip()`.
All greedy sub-matches before the tail are forced (their character
classes are disjoint from the following required character), so maximal
munch is faithful. -/
def vocabMatch (s : List Char) : Option (List Char × List Char) :=
  match s.dropWhile isSpace with
  | [] => none
  | c :: rest =>
    if isAlphaC c then
      let w := rest.takeWhile isWordChar
      match (rest.dropWhile isWordChar).dropWhile isSpace with
      | '(' :: inner =>
        let g2 := inner.takeWhile (fun x => !(x == ')'))
        if g2.isEmpty then none
        else
          match inner.drop g2.length with
          | ')' :: after =>
            match tailCapture after with
            | some g3 =>
              some (stripChars (c :: w),
                    '(' :: stripChars g2 ++ [')', ' '] ++ stripChars g3)
            | none => none
          | _ => none
      | _ => none
    else none

/-- `smart_split_term_def` (app.py lines 28-48): strip, remove leading
numbering, then in order: explicit delimiter, vocab pattern, first
whitespace split, whole line as term. -/
def smart_split_term_def (line : String) : String × String :=
  let s := stripNumbering (stripChars line.data)
  match tryDelims s delimsTried with
  | some pr => ((⟨stripChars pr.1⟩ : String), (⟨stripChars pr.2⟩ : String))
  | none =>
    match vocabMatch s with
    | some pr => ((⟨pr.1⟩ : String), (⟨pr.2⟩ : String))
    | none =>
      match splitNoneOnce s with
      | [a, b] => ((⟨stripChars a⟩ : String), (⟨stripChars b⟩ : String))
      | _ => ((⟨s⟩ : String), "")

/-! ### `app.py` lines 50-59: `split_into_items` -/

/-- Worker for `re.sub(r'\n{2,}', '\n', t)` (app.py line 52): within a
maximal run of newlines only the first is kept when the run has length
at least two, which is exactly what rewriting every `\n{2,}` run to a
single `\n` does.  `prevNL` records whether the previous character was
a newline. -/
def collapseNLAux (prevNL : Bool) : List Char → List Char
  | [] => []
  | c :: rest =>
    if c == '\n' then
      if prevNL then collapseNLAux true rest
      else '\n' :: collapseNLAux true rest
    else c :: collapseNLAux false rest

/-- `re.sub(r'\n{2,}', '\n', t)`. -/
def collapseNewlines (cs : List Char) : List Char :=
  collapseNLAux false cs

/-- Lookahead of the primary split `(?=\s*\d+[\.\)]\s+)` (app.py
line 54).  The classes whitespace / digit / `[.)]` are disjoint, so the
greedy quantifiers are forced and maximal munch is faithful. -/
def primaryLook (cs : List Char) : Bool :=
  let a := cs.dropWhile isSpace
  let ds := a.takeWhile isDigitC
  match a.dropWhile isDigitC with
  | p :: q :: _ => !ds.isEmpty && (p == '.' || p == ')') && isSpace q
  | _ => false

/-- Regex `[\-–—:]` of the secondary split pattern. -/
def dashColonChar (c : Char) : Bool :=
  c == '-' || c == '–' || c == '—' || c == ':'

/-- Alternative `\s[\-–—:]\s` at a fixed position (the `\s` here may be
any whitespace, a newline included). -/
def sepAfter : List Char → Bool
  | a :: b :: c :: _ => isSpace a && dashColonChar b && isSpace c
  | _ => false

/-- Alternative `\s\([^)]+\)` at a fixed position: whitespace, an
opening parenthesis, at least one character that is not `)` and then a
closing parenthesis. -/
def parenAfter : List Char → Bool
  | a :: b :: rest =>
    isSpace a && b == '(' &&
      !(rest.takeWhile (fun x => !(x == ')'))).isEmpty &&
      !(rest.dropWhile (fun x => !(x == ')'))).isEmpty
  | _ => false

/-- Lookahead of the secondary split
`(?=[A-Za-z][^\n]{0,50}?(?:\s[\-–—:]\s|\s\([^)]+\)))` (app.py line 58):
a letter, then some `k ≤ 50` non-newline characters, then one of the
two alternatives; for a lookahead only existence of a match matters. -/
def secondaryLook : List Char → Bool
  | [] => false
  | c :: rest =>
    isAlphaC c &&
      (List.range 51).any (fun k =>
        (rest.take k).all (fun x => !(x == '\n')) &&
        (sepAfter (rest.drop k) || parenAfter (rest.drop k)))

/-- Worker for `re.split` with a pattern consuming one `\n` guarded by a
zero-width lookahead: cut at every newline whose suffix satisfies
`look`; `acc` holds the current piece reversed. -/
def splitNLAux (look : List Char → Bool) : List Char → List Char → List (List Char)
  | [], acc => [acc.reverse]
  | c :: rest, acc =>
    if c == '\n' && look rest then acc.reverse :: splitNLAux look rest []
    else splitNLAux look rest (c :: acc)

/-- `re.split(r'\n(?=...)', cs)` for a lookahead `look`. -/
def splitOnNewlineIf (look : List Char → Bool) (cs : List Char) : List (List Char) :=
  splitNLAux look cs []

/-- The normalized and stripped text `t.strip()` of app.py lines 51-54:
`raw.replace("\r\n", "\n")`, collapse `\n{2,}` runs, strip. -/
def normalizedStripped (raw : String) : List Char :=
  stripChars (collapseNewlines (replaceAll ("\r\n".data) ("\n".data) raw.data))

/-- `split_into_items` (app.py lines 50-59): primary split before a new
numbered item; if that produced at most one piece, secondary split
before a line that looks like a term start; pieces are stripped and
empty pieces dropped. -/
def split_into_items (raw : String) : List String :=
  let s := normalizedStripped raw
  let items := splitOnNewlineIf primaryLook s
  if 1 < items.length then
    ((items.map stripChars).filter (fun x => !x.isEmpty)).map (fun x => (⟨x⟩ : String))
  else
    let items2 := splitOnNewlineIf secondaryLook s
    ((items2.map stripChars).filter (fun x => !x.isEmpty)).map (fun x => (⟨x⟩ : String))

/-! ### `app.py` lines 61-70: `parse_text_to_df` -/

/-- `parse_text_to_df` (app.py lines 61-70), with the resulting
two-column data frame modelled as the list of its `(term, definition)`
rows; a row is kept when `term or definition` is truthy, i.e. when at
least one of the two strings is non-empty. -/
def parse_text_to_df (raw : String) : List (String × String) :=
  (split_into_items raw).filterMap (fun it =>
    let p := smart_split_term_def it
    if p.1.isEmpty && p.2.isEmpty then none else some p)

/-! ### `app.py` lines 20-21 and 93-208: PDF layout

The ReportLab canvas is modelled as a list of draw instructions per
page; calls that only mutate colour or dash state
(`setStrokeColor`, `setDash`, `setFillColor`) emit no geometry or
content and are not recorded, `draw_dashed_guides` is recorded as its
`rect` call.  `stringWidth` is an external font-metrics collaborator
and is passed in as a function `sw text font size`.  All coordinates
are exact rationals (`letter = (612, 792)` points). -/

/-- `mm_to_points` (app.py lines 20-21): `mm * 72.0 / 25.4`. -/
def mm_to_points (mm : ℚ) : ℚ :=
  mm * 72 / (254 / 10)

def PAGE_W : ℚ := 612
def PAGE_H : ℚ := 792
def MARGIN : ℚ := 18
def COLS : Nat := 2
def ROWS : Nat := 4
def card_w : ℚ := (PAGE_W - 2 * MARGIN) / (COLS : ℚ)
def card_h : ℚ := (PAGE_H - 2 * MARGIN) / (ROWS : ℚ)

/-- One card of the deck: a row of the two-column data frame. -/
structure Card where
  term : String
  definition : String
deriving DecidableEq

/-- The keyword arguments of `create_cards_pdf` (app.py lines 117-122).
`duplex_mode` is a free-form label compared against the literal
`"Long-edge (mirrored back)"`, exactly as in the source. -/
structure PrintConfig where
  duplex_mode : String
  back_offset_x_mm : ℚ
  back_offset_y_mm : ℚ
  footer_text : String
  show_corner : Bool
deriving DecidableEq

/-- A recorded canvas call. -/
inductive DrawOp where
  | rect (x y w h : ℚ)
  | setFont (font : String) (size : ℚ)
  | drawCentredString (x y : ℚ) (text : String)
  | drawRightString (x y : ℚ) (text : String)
  | drawString (x y : ℚ) (text : String)
  | circle (x y r : ℚ)
deriving DecidableEq

/-- `wrap_text`'s loop (app.py lines 101-115): greedy word wrap;
`cur` is the line being accumulated. -/
def wrapAux (sw : String → String → ℚ → ℚ) (font : String) (size max_width : ℚ) :
    List Char → List (List Char) → List (List Char)
  | cur, [] => if cur.isEmpty then [] else [cur]
  | cur, w :: ws =>
    let test := stripChars (cur ++ ' ' :: w)
    if sw (⟨test⟩ : String) font size ≤ max_width then
      wrapAux sw font size max_width test ws
    else if cur.isEmpty then
      wrapAux sw font size max_width w ws
    else
      cur :: wrapAux sw font size max_width w ws

/-- `wrap_text(text, font, size, max_width)` (app.py lines 101-115),
parameterised by the external `stringWidth` collaborator `sw`. -/
def wrap_text (sw : String → String → ℚ → ℚ) (text font : String)
    (size max_width : ℚ) : List String :=
  (wrapAux sw font size max_width [] (splitNone text.data)).map
    (fun cs => (⟨cs⟩ : String))

/-- `map_idx` (app.py lines 166-175): with the mirrored long-edge mode
the column is flipped (`col_b = (COLS - 1) - col`), any other mode maps
the grid index to itself. -/
def map_idx (duplex_mode : String) (j : Nat) : Nat :=
  if duplex_mode = "Long-edge (mirrored back)" then
    (j / COLS) * COLS + ((COLS - 1) - j % COLS)
  else j

/-- The back-face position of slice index `j` (app.py lines 178-183):
grid cell of `map_idx j` plus the calibration offsets converted from
millimetres. -/
def back_xy (duplex_mode : String) (ox oy : ℚ) (j : Nat) : ℚ × ℚ :=
  let mapped := map_idx duplex_mode j
  (MARGIN + ((mapped % COLS : Nat) : ℚ) * card_w + mm_to_points ox,
   PAGE_H - MARGIN - (((mapped / COLS : Nat) : ℚ) + 1) * card_h + mm_to_points oy)

/-- The canvas calls for one front card (app.py lines 139-161): guide
rect, bold font, the stripped term truncated to 120 characters drawn
centred, then the optional footer and corner marker.  (The
`stringWidth` of the term is computed by the source but never used.) -/
def front_card_ops (cfg : PrintConfig) (idx : Nat) (rec : Card) : List DrawOp :=
  let x : ℚ := MARGIN + ((idx % COLS : Nat) : ℚ) * card_w
  let y : ℚ := PAGE_H - MARGIN - (((idx / COLS : Nat) : ℚ) + 1) * card_h
  let term := stripStr rec.term
  ([DrawOp.rect x y card_w card_h,
    DrawOp.setFont "Helvetica-Bold" 18,
    DrawOp.drawCentredString (x + card_w / 2) (y + card_h / 2 + 10) (term.take 120)]
   ++ (if cfg.footer_text.isEmpty then [] else
        [DrawOp.setFont "Helvetica" 8,
         DrawOp.drawRightString (x + card_w - 6) (y + 6) cfg.footer_text])
   ++ (if cfg.show_corner then [DrawOp.circle (x + 6) (y + 6) (3 / 2)] else []))

/-- The canvas calls for one back card (app.py lines 178-203): guide
rect at the mapped and offset position, font, at most the first 12
wrapped lines of the stripped definition, then the optional footer and
corner marker. -/
def back_card_ops (sw : String → String → ℚ → ℚ) (cfg : PrintConfig)
    (idx : Nat) (rec : Card) : List DrawOp :=
  let xy := back_xy cfg.duplex_mode cfg.back_offset_x_mm cfg.back_offset_y_mm idx
  let x := xy.1
  let y := xy.2
  let lines := wrap_text sw (stripStr rec.definition) "Helvetica" 11 (card_w - 14)
  ([DrawOp.rect x y card_w card_h,
    DrawOp.setFont "Helvetica" 11]
   ++ ((lines.take 12).enum.map (fun p =>
        DrawOp.drawString (x + 7) ((y + card_h - 20) - (p.1 : ℚ) * 14) p.2))
   ++ (if cfg.footer_text.isEmpty then [] else
        [DrawOp.setFont "Helvetica" 8,
         DrawOp.drawRightString (x + card_w - 6) (y + 6) cfg.footer_text])
   ++ (if cfg.show_corner then [DrawOp.circle (x + 6) (y + 6) (3 / 2)] else []))

/-- The front page of one 8-card slice (app.py lines 139-163). -/
def front_page (cfg : PrintConfig) (slice_rows : List Card) : List DrawOp :=
  slice_rows.enum.flatMap (fun p => front_card_ops cfg p.1 p.2)

/-- The back page of one 8-card slice (app.py lines 178-205). -/
def back_page (sw : String → String → ℚ → ℚ) (cfg : PrintConfig)
    (slice_rows : List Card) : List DrawOp :=
  slice_rows.enum.flatMap (fun p => back_card_ops sw cfg p.1 p.2)

/-- `create_cards_pdf` (app.py lines 117-208), as the list of emitted
pages in order: the loop `for i in range(0, len(records), COLS * ROWS)`
emits, for each successive slice of 8 records, one front page followed
by one back page.  An empty record list emits no page. -/
def create_cards_pdf (sw : String → String → ℚ → ℚ) (cfg : PrintConfig) :
    List Card → List (List DrawOp)
  | [] => []
  | r :: rest =>
    front_page cfg (r :: rest.take 7)
      :: back_page sw cfg (r :: rest.take 7)
      :: create_cards_pdf sw cfg (rest.drop 7)
termination_by records => records.length
decreasing_by
  simp only [List.length_cons, List.length_drop]
  omega

/-! ### `app.py` lines 341-343: footer composition in `step_download` -/

/-- The footer string built by `step_download` (app.py lines 341-343):
`template.replace("{subject}", subject).replace("{lesson}", lesson)`. -/
def compose_footer (template subject lesson : String) : String :=
  ⟨replaceAll ("{lesson}".data) lesson.data
    (replaceAll ("{subject}".data) subject.data template.data)⟩

/-! ### Concrete instances used by witnesses and counterexamples -/

/-- A trivial font-metrics collaborator: every string has width 0. -/
def swZero : String → String → ℚ → ℚ := fun _ _ _ => 0

/-- The default keyword arguments of `create_cards_pdf`
(app.py lines 118-122). -/
def cfgDefault : PrintConfig :=
  { duplex_mode := "Long-edge (mirrored back)"
    back_offset_x_mm := 0
    back_offset_y_mm := 0
    footer_text := ""
    show_corner := false }

/-- Modelled from the spec: the back-face position that §4.4
`ShortEdgeRotated` prescribes and that is absent from the source — the
unmirrored grid cell of index `j`, carried through a 180° rotation of
the whole page (a cell rectangle with lower-left corner `(x, y)` maps
to the one with lower-left corner
`(PAGE_W - x - card_w, PAGE_H - y - card_h)`). -/
def rotatedBackPosSpec (j : Nat) : ℚ × ℚ :=
  (PAGE_W - (MARGIN + ((j % COLS : Nat) : ℚ) * card_w) - card_w,
   PAGE_H - (PAGE_H - MARGIN - (((j / COLS : Nat) : ℚ) + 1) * card_h) - card_h)

/-- Number of guide rectangles on a page: one per populated card slot,
since each drawn card (front or back) emits exactly one `rect`. -/
def countRects (ops : List DrawOp) : Nat :=
  ops.countP (fun op => match op with
    | DrawOp.rect _ _ _ _ => true
    | _ => false)

/-- The text lines of a page or card block, in drawing order: the
contents of its `drawString` calls (the back-face definition lines;
terms use `drawCentredString` and footers `drawRightString`). -/
def drawnStrings (ops : List DrawOp) : List String :=
  ops.filterMap (fun op => match op with
    | DrawOp.drawString _ _ s => some s
    | _ => none)

/-- A concrete 17-card deck. -/
def deck17 : List Card :=
  List.replicate 17 { term := "t", definition := "d" }

/-! ## Helper lemmas -/

theorem stripChars_eq_rdropWhile (cs : List Char) :
    stripChars cs = List.rdropWhile isSpace (cs.dropWhile isSpace) := rfl

theorem dropWhile_stripChars (cs : List Char) :
    (stripChars cs).dropWhile isSpace = stripChars cs := by
  rw [stripChars_eq_rdropWhile]
  have hm2 : (cs.dropWhile isSpace).dropWhile isSpace = cs.dropWhile isSpace :=
    List.dropWhile_idempotent isSpace cs
  rcases h : List.rdropWhile isSpace (cs.dropWhile isSpace) with _ | ⟨a, z⟩
  · simp
  · obtain ⟨t, ht⟩ := List.rdropWhile_prefix isSpace (cs.dropWhile isSpace)
    rw [h] at ht
    have ha : ¬ isSpace a = true := by
      rw [← ht] at hm2
      intro hsp
      rw [List.cons_append, List.dropWhile_cons_of_pos hsp] at hm2
      have hle := (List.dropWhile_suffix (l := z ++ t) isSpace).length_le
      rw [hm2] at hle
      simp at hle
    simp [List.dropWhile_cons, ha]

theorem stripChars_idem (cs : List Char) :
    stripChars (stripChars cs) = stripChars cs := by
  conv_lhs => rw [stripChars_eq_rdropWhile (stripChars cs), dropWhile_stripChars]
  rw [stripChars_eq_rdropWhile cs]
  exact List.rdropWhile_idempotent isSpace _

theorem create_cards_pdf_cons (sw : String → String → ℚ → ℚ) (cfg : PrintConfig)
    (recs : List Card) (h : recs ≠ []) :
    create_cards_pdf sw cfg recs =
      front_page cfg (recs.take 8) :: back_page sw cfg (recs.take 8)
        :: create_cards_pdf sw cfg (recs.drop 8) := by
  cases recs with
  | nil => exact absurd rfl h
  | cons r rest => simp [create_cards_pdf]

theorem create_cards_pdf_nil (sw : String → String → ℚ → ℚ) (cfg : PrintConfig) :
    create_cards_pdf sw cfg [] = [] := by
  simp [create_cards_pdf]

theorem countRects_front_card (cfg : PrintConfig) (idx : Nat) (rec : Card) :
    countRects (front_card_ops cfg idx rec) = 1 := by
  by_cases hf : cfg.footer_text.isEmpty <;> by_cases hc : cfg.show_corner <;>
    simp [countRects, front_card_ops, hf, hc]

theorem countRects_back_card (sw : String → String → ℚ → ℚ) (cfg : PrintConfig)
    (idx : Nat) (rec : Card) :
    countRects (back_card_ops sw cfg idx rec) = 1 := by
  by_cases hf : cfg.footer_text.isEmpty <;> by_cases hc : cfg.show_corner <;>
    simp [countRects, back_card_ops, hf, hc, List.countP_append, List.countP_map]

theorem countRects_front_page (cfg : PrintConfig) (slice_rows : List Card) :
    countRects (front_page cfg slice_rows) = slice_rows.length := by
  have key : ∀ l : List (Nat × Card),
      countRects (l.flatMap (fun p => front_card_ops cfg p.1 p.2)) = l.length := by
    intro l
    induction l with
    | nil => rfl
    | cons a l ih =>
      simp only [List.flatMap_cons, countRects, List.countP_append, List.length_cons]
      rw [← countRects, ← countRects, countRects_front_card, ih]
      omega
  rw [front_page, key, List.enum_length]

theorem countRects_back_page (sw : String → String → ℚ → ℚ) (cfg : PrintConfig)
    (slice_rows : List Card) :
    countRects (back_page sw cfg slice_rows) = slice_rows.length := by
  have key : ∀ l : List (Nat × Card),
      countRects (l.flatMap (fun p => back_card_ops sw cfg p.1 p.2)) = l.length := by
    intro l
    induction l with
    | nil => rfl
    | cons a l ih =>
      simp only [List.flatMap_cons, countRects, List.countP_append, List.length_cons]
      rw [← countRects, ← countRects, countRects_back_card, ih]
      omega
  rw [back_page, key, List.enum_length]

theorem drawnStrings_enum_drawString (x top : ℚ) (l : List String) :
    drawnStrings (l.enum.map (fun p =>
      DrawOp.drawString (x + 7) (top - (p.1 : ℚ) * 14) p.2)) = l := by
  have key : ∀ (n : Nat) (l : List String),
      drawnStrings ((l.enumFrom n).map (fun p =>
        DrawOp.drawString (x + 7) (top - (p.1 : ℚ) * 14) p.2)) = l := by
    intro n l
    induction l generalizing n with
    | nil => rfl
    | cons a l ih =>
      simp only [List.enumFrom, List.map_cons, drawnStrings, List.filterMap_cons]
      rw [← drawnStrings, ih]
  exact key 0 l

/-! ## Claim theorems -/

/-- C1: with duplex mode `"Long-edge (mirrored back)"` the back
counterpart of the front card at grid index `j` (column `j % 2`, row
`j / 2`) is placed at back-grid column `1 - j % 2` with the row
unchanged, for every grid index and every calibration offset: `map_idx`
flips the column and keeps the row, and the back-face position used for
slice index `j` is the grid cell of column `1 - j % 2`, row `j / 2`,
shifted by the converted offsets. -/
theorem long_edge_mirrored_back_column (ox oy : ℚ) (j : Nat) :
    map_idx "Long-edge (mirrored back)" j % COLS = 1 - j % COLS ∧
    map_idx "Long-edge (mirrored back)" j / COLS = j / COLS ∧
    back_xy "Long-edge (mirrored back)" ox oy j =
      (MARGIN + ((1 - j % COLS : Nat) : ℚ) * card_w + mm_to_points ox,
       PAGE_H - MARGIN - (((j / COLS : Nat) : ℚ) + 1) * card_h + mm_to_points oy) := by
  have hco : COLS = 2 := rfl
  have hmap : map_idx "Long-edge (mirrored back)" j = (j / 2) * 2 + (1 - j % 2) := by
    simp [map_idx, COLS]
  have h1 : map_idx "Long-edge (mirrored back)" j % COLS = 1 - j % COLS := by
    rw [hmap, hco]; omega
  have h2 : map_idx "Long-edge (mirrored back)" j / COLS = j / COLS := by
    rw [hmap, hco]; omega
  refine ⟨h1, h2, ?_⟩
  simp only [back_xy]
  rw [h1, h2]

/-- C2 counterexample: the colon delimiter is matched without
surrounding whitespace, so the block `"Meeting 9:00 in the hall"`,
whose only separator character is the colon inside `"9:00"`, is split
exactly at that colon (and not at the first whitespace run as the
no-split fallback would do). -/
theorem colon_splits_without_whitespace :
    smart_split_term_def "Meeting 9:00 in the hall" = ("Meeting 9", "00 in the hall") ∧
    smart_split_term_def "Meeting 9:00 in the hall" ≠ ("Meeting", "9:00 in the hall") := by
  constructor
  · decide
  · decide

/-- C2 amended: the dash separators are only matched when surrounded by
whitespace (a mid-word hyphen as in `"well-known"` never splits), but
the colon is matched bare, so a colon without surrounding whitespace,
as in `"9:00"`, does cause a split at its first occurrence. -/
theorem dash_needs_whitespace_colon_does_not :
    smart_split_term_def "Meeting at 9:00 sharp" = ("Meeting at 9", "00 sharp") ∧
    smart_split_term_def "well-known stuff" = ("well-known", "stuff") ∧
    smart_split_term_def "alpha - beta" = ("alpha", "beta") := by
  refine ⟨by decide, by decide, by decide⟩

/-- C3 counterexample: parsing `"term - part one\nmore text"` does not
produce the definition `"part one more text"`; the internal newline is
not collapsed to a space. -/
theorem continuation_newline_cex :
    parse_text_to_df "term - part one\nmore text" ≠ [("term", "part one more text")] := by
  decide

/-- C3 amended: parsing `"term - part one\nmore text"` yields exactly
one pair whose term is `"term"`; the continuation line is kept in the
previous pair's definition, but with the internal newline preserved
(`"part one\nmore text"`), not collapsed to a single space. -/
theorem continuation_newline_preserved :
    parse_text_to_df "term - part one\nmore text" = [("term", "part one\nmore text")] := by
  decide

/-- C5: the parse pipeline is embedded as a total Lean function
(`parse_text_to_df`), and behaves as claimed on the edge inputs: empty
input yields the empty sequence of pairs, and a block with no
recognizable separator yields the pair `("mysteryword", "")`. -/
theorem parse_total_function_examples :
    parse_text_to_df "" = [] ∧
    parse_text_to_df "mysteryword" = [("mysteryword", "")] := by
  constructor
  · decide
  · decide

/-- C7 counterexample: with a short-edge duplex label the source takes
the unmirrored `else` branch of `map_idx` and applies no page rotation:
the back position of slice index 0 equals the plain front grid cell
`(MARGIN, PAGE_H - MARGIN - card_h)` and differs from the
180°-rotated position `rotatedBackPosSpec 0` that the claim
prescribes. -/
theorem short_edge_rotated_cex :
    back_xy "Short-edge (rotated back)" 0 0 0 ≠ rotatedBackPosSpec 0 ∧
    back_xy "Short-edge (rotated back)" 0 0 0 = (MARGIN, PAGE_H - MARGIN - card_h) := by
  constructor
  · simp [back_xy, map_idx, rotatedBackPosSpec, MARGIN, PAGE_H, PAGE_W, card_h,
      card_w, COLS, mm_to_points, Prod.ext_iff]
    norm_num
  · simp [back_xy, map_idx, MARGIN, PAGE_H, card_h, card_w, COLS, mm_to_points]

/-- C7 amended: the source supports no `ShortEdgeRotated` mode: for
every duplex-mode label other than `"Long-edge (mirrored back)"`
(including any short-edge label) the back mapping is the identity and
no rotation is applied — the back-face position of slice index `j` is
the front grid cell of `j` shifted only by the calibration offsets. -/
theorem non_mirrored_identity_no_rotation (mode : String)
    (h : mode ≠ "Long-edge (mirrored back)") (ox oy : ℚ) (j : Nat) :
    map_idx mode j = j ∧
    back_xy mode ox oy j =
      (MARGIN + ((j % COLS : Nat) : ℚ) * card_w + mm_to_points ox,
       PAGE_H - MARGIN - (((j / COLS : Nat) : ℚ) + 1) * card_h + mm_to_points oy) := by
  have hm : map_idx mode j = j := by simp [map_idx, h]
  refine ⟨hm, ?_⟩
  simp only [back_xy]
  rw [hm]

/-- Witness for the C7 amended theorem at the concrete short-edge mode
label and slice index 0. -/
theorem non_mirrored_identity_no_rotation_witness :
    ("Short-edge (rotated back)" : String) ≠ "Long-edge (mirrored back)" ∧
    (map_idx "Short-edge (rotated back)" 0 = 0 ∧
     back_xy "Short-edge (rotated back)" 0 0 0 =
       (MARGIN + ((0 % COLS : Nat) : ℚ) * card_w + mm_to_points 0,
        PAGE_H - MARGIN - (((0 / COLS : Nat) : ℚ) + 1) * card_h + mm_to_points 0)) :=
  ⟨by decide, non_mirrored_identity_no_rotation "Short-edge (rotated back)" (by decide) 0 0 0⟩

/-- C8 counterexample: for the empty deck `create_cards_pdf` does not
refuse — it builds and returns a zero-sheet document (no pages at all),
with no error channel anywhere in its type or in the source; no
"nothing to render" condition is reported. -/
theorem empty_deck_zero_sheet_document :
    create_cards_pdf swZero cfgDefault [] = [] := by
  simp [create_cards_pdf]

/-- C8 amended: the layout engine never reports an empty deck; it
returns a document for every deck, and that document has zero sheets
exactly when the deck is empty. -/
theorem create_cards_pdf_nil_iff (sw : String → String → ℚ → ℚ)
    (cfg : PrintConfig) (records : List Card) :
    create_cards_pdf sw cfg records = [] ↔ records = [] := by
  cases records with
  | nil => simp [create_cards_pdf]
  | cons r rest => simp [create_cards_pdf]

/-- C9 counterexample: composing the footer from the template
`"{subject} • {lesson}"` with subject `"Math"` and empty lesson does
not yield just the subject. -/
theorem footer_trailing_separator_cex :
    compose_footer "{subject} • {lesson}" "Math" "" ≠ "Math" := by
  decide

/-- C9 amended: footer composition is plain token substitution with no
trimming of residual separators: with a non-empty subject and an empty
lesson the separator dangles (`"Math • "`), and with both fields empty
the template collapses to the bare separator `" • "`, not to the empty
string. -/
theorem footer_no_trimming :
    compose_footer "{subject} • {lesson}" "Math" "" = "Math • " ∧
    compose_footer "{subject} • {lesson}" "" "" = " • " := by
  constructor
  · decide
  · decide

/-- C4: a deck of 17 cards yields exactly 3 sheets (`⌈17/8⌉`): the
emitted pages are exactly front and back of the first 8 cards, front
and back of the next 8, and front and back of the final partial slice,
in deck order; the final slice holds a single card, and its front and
back pages each draw exactly one card slot (one guide rectangle),
leaving the other 7 grid cells blank. -/
theorem seventeen_card_deck_three_sheets (sw : String → String → ℚ → ℚ)
    (cfg : PrintConfig) (records : List Card) (h : records.length = 17) :
    create_cards_pdf sw cfg records =
      [front_page cfg (records.take 8),
       back_page sw cfg (records.take 8),
       front_page cfg ((records.drop 8).take 8),
       back_page sw cfg ((records.drop 8).take 8),
       front_page cfg ((records.drop 8).drop 8),
       back_page sw cfg ((records.drop 8).drop 8)] ∧
    ((records.drop 8).drop 8).length = 1 ∧
    countRects (front_page cfg ((records.drop 8).drop 8)) = 1 ∧
    countRects (back_page sw cfg ((records.drop 8).drop 8)) = 1 := by
  have hd16 : ((records.drop 8).drop 8).length = 1 := by
    simp [h]
  have hne0 : records ≠ [] := by
    intro he; rw [he] at h; simp at h
  have hne1 : records.drop 8 ≠ [] := by
    intro he
    have : (records.drop 8).length = 0 := by rw [he]; rfl
    simp [h] at this
  have hne2 : (records.drop 8).drop 8 ≠ [] := by
    intro he; rw [he] at hd16; simp at hd16
  have htake : ((records.drop 8).drop 8).take 8 = (records.drop 8).drop 8 :=
    List.take_of_length_le (by omega)
  have hdrop : ((records.drop 8).drop 8).drop 8 = [] :=
    List.eq_nil_of_length_eq_zero (by simp [h])
  refine ⟨?_, hd16, ?_, ?_⟩
  · rw [create_cards_pdf_cons sw cfg records hne0,
        create_cards_pdf_cons sw cfg _ hne1,
        create_cards_pdf_cons sw cfg _ hne2,
        htake, hdrop, create_cards_pdf_nil]
  · rw [countRects_front_page, hd16]
  · rw [countRects_back_page, hd16]

/-- Witness for C4 at a concrete 17-card deck. -/
theorem seventeen_card_deck_three_sheets_witness :
    deck17.length = 17 ∧
    (create_cards_pdf swZero cfgDefault deck17 =
      [front_page cfgDefault (deck17.take 8),
       back_page swZero cfgDefault (deck17.take 8),
       front_page cfgDefault ((deck17.drop 8).take 8),
       back_page swZero cfgDefault ((deck17.drop 8).take 8),
       front_page cfgDefault ((deck17.drop 8).drop 8),
       back_page swZero cfgDefault ((deck17.drop 8).drop 8)] ∧
     ((deck17.drop 8).drop 8).length = 1 ∧
     countRects (front_page cfgDefault ((deck17.drop 8).drop 8)) = 1 ∧
     countRects (back_page swZero cfgDefault ((deck17.drop 8).drop 8)) = 1) :=
  ⟨by simp [deck17],
   seventeen_card_deck_three_sheets swZero cfgDefault deck17 (by simp [deck17])⟩

/-- C6 counterexample: for the input `"alpha beta\n\ngamma delta"`,
in which neither the list-marker nor the headword-start boundary
matches, the segmenter does not fall back to splitting at the blank
line — the run of two newlines is collapsed and a single block is
returned. -/
theorem blank_line_fallback_cex :
    split_into_items "alpha beta\n\ngamma delta" = ["alpha beta\ngamma delta"] ∧
    split_into_items "alpha beta\n\ngamma delta" ≠ ["alpha beta", "gamma delta"] := by
  constructor
  · decide
  · decide

/-- C6 amended: there is no blank-line fallback: runs of two or more
newlines are collapsed to a single newline during normalization, and
when neither the primary (list-marker) nor the secondary
(headword-start) split fires on the normalized stripped text, the
segmenter returns that whole text as the single block (or no block at
all when it is empty). -/
theorem no_boundary_single_block (raw : String)
    (h1 : splitOnNewlineIf primaryLook (normalizedStripped raw) = [normalizedStripped raw])
    (h2 : splitOnNewlineIf secondaryLook (normalizedStripped raw) = [normalizedStripped raw]) :
    split_into_items raw =
      if (normalizedStripped raw).isEmpty then []
      else [(⟨normalizedStripped raw⟩ : String)] := by
  have hs : stripChars (normalizedStripped raw) = normalizedStripped raw :=
    stripChars_idem _
  simp only [split_into_items, h1, h2, List.length_cons, List.length_nil]
  rw [if_neg (by omega)]
  simp only [List.map_cons, List.map_nil, hs]
  by_cases he : (normalizedStripped raw).isEmpty
  · simp [he]
  · simp [he]

/-- Witness for the C6 amended theorem at the concrete input
`"alpha beta\n\ngamma delta"`. -/
theorem no_boundary_single_block_witness :
    (splitOnNewlineIf primaryLook (normalizedStripped "alpha beta\n\ngamma delta") =
      [normalizedStripped "alpha beta\n\ngamma delta"]) ∧
    (splitOnNewlineIf secondaryLook (normalizedStripped "alpha beta\n\ngamma delta") =
      [normalizedStripped "alpha beta\n\ngamma delta"]) ∧
    split_into_items "alpha beta\n\ngamma delta" =
      (if (normalizedStripped "alpha beta\n\ngamma delta").isEmpty then []
       else [(⟨normalizedStripped "alpha beta\n\ngamma delta"⟩ : String)]) :=
  ⟨by decide, by decide,
   no_boundary_single_block "alpha beta\n\ngamma delta" (by decide) (by decide)⟩

/-- C10: for every card and every font-metrics collaborator, the back
face draws exactly the first 12 wrapped lines of the definition — the
`drawString` contents of its back-card block are
`(wrap_text ...).take 12`, hence never more than 12 lines; wrapped
lines beyond the twelfth are absent from the emitted output. -/
theorem back_face_twelve_line_cap (sw : String → String → ℚ → ℚ)
    (cfg : PrintConfig) (idx : Nat) (rec : Card) :
    drawnStrings (back_card_ops sw cfg idx rec) =
      (wrap_text sw (stripStr rec.definition) "Helvetica" 11 (card_w - 14)).take 12 ∧
    (drawnStrings (back_card_ops sw cfg idx rec)).length ≤ 12 := by
  have hmain : drawnStrings (back_card_ops sw cfg idx rec) =
      (wrap_text sw (stripStr rec.definition) "Helvetica" 11 (card_w - 14)).take 12 := by
    simp only [back_card_ops, drawnStrings, List.filterMap_append]
    rw [← drawnStrings, ← drawnStrings, ← drawnStrings, ← drawnStrings,
        drawnStrings_enum_drawString]
    by_cases hf : cfg.footer_text.isEmpty <;> by_cases hc : cfg.show_corner <;>
      simp [hf, hc, drawnStrings]
  refine ⟨hmain, ?_⟩
  rw [hmain]
  have := List.length_take 12
    (wrap_text sw (stripStr rec.definition) "Helvetica" 11 (card_w - 14))
  omega

end FlashDecky
